import Mathlib

/-!
Verification of the caching and translation-orchestration layer of the
pantry-inventory / recipe-suggestion backend.

The definitions below are a shallow embedding of:
  * `backend/services/translationService.js` (`translateText`),
  * the `GET /api/recetas/inventario` and `GET /api/recetas/detalles/:recipeId`
    handlers of `backend/server.js`,
  * the `CacheEntryModel` TTL cache schema.

JavaScript strings are represented by Lean `String`; the JS string operations
used by the code (`split("|||")`, `trim()`, `Array.prototype.sort()` on
strings, template-literal concatenation) are embedded as structurally
recursive Lean functions so that every definition evaluates by kernel
reduction.  Asynchronous effects (MongoDB cache reads/writes, Gemini calls,
Spoonacular calls) are embedded as explicit state passing over an effect
state `St`; the external collaborators are a read-only environment `Config`.
`Promise.all` of independent translation calls is linearized left-to-right,
which is an admissible schedule of the single-threaded event loop.
-/

/-! ### JS string primitives, embedded structurally -/

/-- Lexicographic comparison of character lists by code point, mirroring the
JS default string comparison used by `Array.prototype.sort()`. -/
def charListLe : List Char → List Char → Bool
  | [], _ => true
  | _ :: _, [] => false
  | a :: as, b :: bs => if a < b then true else if b < a then false else charListLe as bs

/-- JS `a <= b` on strings (code-point lexicographic). -/
def strLe (a b : String) : Bool := charListLe a.data b.data

/-- Worker for `split3`: scans the characters, cutting at every occurrence of
the three-pipe separator `"|||"`, exactly as JS `s.split("|||")` does
(leftmost-first, non-overlapping). -/
def split3go (acc : List Char) : List Char → List (List Char)
  | [] => [acc.reverse]
  | '|' :: '|' :: '|' :: rest => acc.reverse :: split3go [] rest
  | c :: rest => split3go (c :: acc) rest

/-- JS `s.split("|||")` for the fixed separator `separador = "|||"` used by
the batch-translation protocol. -/
def split3 (s : String) : List String := (split3go [] s.data).map (fun l => ⟨l⟩)

/-- Drop leading whitespace characters. -/
def dropWs : List Char → List Char
  | [] => []
  | c :: rest => if c.isWhitespace then dropWs rest else c :: rest

/-- JS `s.trim()`: strip leading and trailing whitespace. -/
def jsTrim (s : String) : String := ⟨(dropWs (dropWs s.data.reverse).reverse)⟩

/-- JS truthiness choice `x || y` for a nullable string `x`: `null` and the
empty string are falsy. -/
def jsOr (x : Option String) (y : String) : String :=
  match x with
  | some s => if s = "" then y else s
  | none => y

/-- `CacheEntry.findOne({cacheKey: key})` over an association-list model of
the MongoDB collection (the unique index on `cacheKey` makes the first match
the only match). -/
def findOne {α : Type} : List (String × α) → String → Option α
  | [], _ => none
  | (k, v) :: rest, key => if k = key then some v else findOne rest key

/-- The relation JS `Array.prototype.sort()` sorts by on strings. -/
def strLeRel (a b : String) : Prop := strLe a b = true

instance : DecidableRel strLeRel := fun a b => instDecidableEqBool (strLe a b) true

/-- JS `arr.sort()` on an array of strings, modelled as a comparison sort;
for the total code-point order every sorted permutation is the same list, so
the choice of sorting algorithm is immaterial. -/
def jsSortStrings (l : List String) : List String := List.insertionSort strLeRel l

/-- One entry of `missedIngredients` in a Spoonacular search result. -/
structure MissedIngredient where
  id : Nat
  amount : Nat
  unit : String
  original : String
  rest : String
deriving DecidableEq

/-- One recipe of a Spoonacular `complexSearch` result list. -/
structure Recipe where
  id : Nat
  title : String
  image : String
  missedIngredients : List MissedIngredient
  rest : String
deriving DecidableEq

/-- One entry of `extendedIngredients` in a Spoonacular detail response. -/
structure Ingredient where
  id : Nat
  amount : Nat
  unit : String
  original : String
  rest : String
deriving DecidableEq

/-- A Spoonacular recipe detail response (`/recipes/:id/information`). -/
structure RecipeDetail where
  id : Nat
  title : String
  summary : String
  instructions : String
  image : String
  extendedIngredients : List Ingredient
  rest : String
deriving DecidableEq

/-- JS `pieces[i] || orig`: the piece at index `i` when it exists and is
non-empty, the original text otherwise. -/
def jsIndex (pieces : List String) (i : Nat) (orig : String) : String :=
  if h : i < pieces.length then
    (if pieces.get ⟨i, h⟩ = "" then orig else pieces.get ⟨i, h⟩)
  else orig

/-- `translatedTitlesString ? translatedTitlesString.split(separador).map(s => s.trim()) : []`
(server.js:475-476): the piece list recovered from a batch-translation
response in the search flow. -/
def jsSplitTrimOrEmpty (resp : Option String) : List String :=
  match resp with
  | some s => if s = "" then [] else (split3 s).map jsTrim
  | none => []

/-- The inner map of server.js:482-489: rewrite each missed ingredient's
`original` with the piece at the running index `translatedMissing[missingIngredientIndex]`,
incrementing the index per ingredient; returns the rewritten list and the
final running index. -/
def translateRecipeMissed (tm : List String) :
    Nat → List MissedIngredient → List MissedIngredient × Nat
  | idx, [] => ([], idx)
  | idx, ing :: rest =>
    let tail := translateRecipeMissed tm (idx + 1) rest
    ({ ing with original := jsIndex tm idx ing.original } :: tail.1, tail.2)

/-- The outer `data.map` of server.js:480-496, with the recipe index and the
running missed-ingredient index threaded explicitly. -/
def translatedDataSearchGo (tt tm : List String) :
    Nat → Nat → List Recipe → List Recipe
  | _, _, [] => []
  | ridx, midx, r :: rest =>
    let newMissed := translateRecipeMissed tm midx r.missedIngredients
    { r with title := jsIndex tt ridx r.title, missedIngredients := newMissed.1 } ::
      translatedDataSearchGo tt tm (ridx + 1) newMissed.2 rest

/-- The `translatedData` reassembly of the search flow (server.js:479-496):
`tt` are the split-and-trimmed translated titles, `tm` the split-and-trimmed
translated missed-ingredient strings. -/
def translatedDataSearch (data : List Recipe) (tt tm : List String) : List Recipe :=
  translatedDataSearchGo tt tm 0 0 data

/-- server.js:591-595: `translatedJoinedString` is split by the separator
without trimming (trimming happens at use); `null` and `""` are falsy and
give the empty piece list. -/
def detailPieces (resp : Option String) : List String :=
  match resp with
  | some s => if s = "" then [] else split3 s
  | none => []

/-- server.js:608: `translatedIngredients[index] ? translatedIngredients[index].trim() : ing.original`. -/
def detailPiece (pieces : List String) (i : Nat) (orig : String) : String :=
  if h : i < pieces.length then
    (if pieces.get ⟨i, h⟩ = "" then orig else jsTrim (pieces.get ⟨i, h⟩))
  else orig

/-- The `extendedIngredients` map of server.js:604-610, with the index
threaded explicitly. -/
def translateIngredients (pieces : List String) :
    Nat → List Ingredient → List Ingredient
  | _, [] => []
  | i, ing :: rest =>
    { ing with original := detailPiece pieces i ing.original } ::
      translateIngredients pieces (i + 1) rest

/-- The `translatedData` object of the detail flow (server.js:598-611). -/
def translatedDataDetail (data : RecipeDetail) (tT tS tI tJ : Option String) :
    RecipeDetail :=
  { data with
    title := jsOr tT data.title
    summary := jsOr tS data.summary
    instructions := jsOr tI data.instructions
    extendedIngredients := translateIngredients (detailPieces tJ) 0 data.extendedIngredients }

/-- Flattened sequence of `missedIngredients[*].original` across a result
list, in running-index order (the order server.js:449-456 collects them in). -/
def flatMissedOriginals : List Recipe → List String
  | [] => []
  | r :: rest => r.missedIngredients.map (fun ing => ing.original) ++ flatMissedOriginals rest

/-- Index-based best-effort mapping starting at running index `j`:
each original is replaced by `jsIndex tm (j + position)`. -/
def mapFrom (tm : List String) : Nat → List String → List String
  | _, [] => []
  | j, o :: rest => jsIndex tm j o :: mapFrom tm (j + 1) rest

/-- Result of the Spoonacular `complexSearch` fetch: the parsed
`data.results` on a 2xx response, or the HTTP status on a non-OK response. -/
inductive SpoonSearchResult where
  | ok (results : List Recipe)
  | httpErr (status : Nat)

/-- Result of the Spoonacular `information` fetch. -/
inductive SpoonDetailResult where
  | ok (data : RecipeDetail)
  | httpErr (status : Nat)

structure Config where
  /-- Whether the Gemini client was initialised (`if (!model)` guard). -/
  modelInit : Bool
  /-- The Gemini call: full prompt ↦ returned text, `none` = thrown error. -/
  gemini : String → Option String
  /-- Spoonacular search, as a function of the two request components that
  vary per request (`ingredientsCommaSeparated` and `filtersQueryString`). -/
  spoon : String → String → SpoonSearchResult
  /-- Spoonacular details, as a function of the recipe id. -/
  spoonDetail : String → SpoonDetailResult
  transReadFails : Bool
  transWriteFails : Bool
  searchReadFails : Bool
  searchWriteFails : Bool
  detailReadFails : Bool
  detailWriteFails : Bool

structure St where
  transCache : List (String × String)
  searchCache : List (String × List Recipe)
  detailCache : List (String × RecipeDetail)
  /-- Number of Gemini (external translation provider) calls issued. -/
  nGemini : Nat
  /-- Number of Spoonacular (recipe provider) calls issued. -/
  nSpoon : Nat
  /-- Number of cache-store read attempts (`findOne`). -/
  nCacheReads : Nat
  /-- Number of cache-store write attempts (`create`). -/
  nCacheWrites : Nat
deriving DecidableEq

/-- The empty world: all caches empty, no effects counted. -/
def St.empty : St := ⟨[], [], [], 0, 0, 0, 0⟩

/-- Placeholder for the message of a store-driver rejection (its exact text
comes from the driver, not from the repository code). -/
def storeErrorMessage : String := "store error"

/-- translationService.js:41: the translation cache key — the namespace tag,
the two language codes and the exact untouched text. -/
def translationCacheKey (sourceLang targetLang textToTranslate : String) : String :=
  "translation:" ++ sourceLang ++ ":" ++ targetLang ++ ":" ++ textToTranslate

/-- translationService.js:57: the single-string translation prompt. -/
def geminiPrompt (sourceLang targetLang textToTranslate : String) : String :=
  "Translate ONLY the following text from " ++ sourceLang ++ " to " ++ targetLang ++
    ". Do not add any extra characters or explanations. The text to translate is: \"" ++
    textToTranslate ++ "\""

/-- translationService.js:34-78 `translateText`: cache-or-compute over the
translation cache.  Every failure inside the `try` (cache read rejection,
Gemini error, cache write rejection) is caught by the surrounding `catch`
and yields `null` (`none`); it is never rethrown to the caller. -/
def translateText (cfg : Config) (st : St) (textToTranslate sourceLang targetLang : String) :
    Option String × St :=
  if cfg.modelInit = false then (none, st)
  else
    let cacheKey := translationCacheKey sourceLang targetLang textToTranslate
    let st₁ := { st with nCacheReads := st.nCacheReads + 1 }
    if cfg.transReadFails then (none, st₁)
    else
      match findOne st₁.transCache cacheKey with
      | some cached => (some cached, st₁)
      | none =>
        let prompt := geminiPrompt sourceLang targetLang textToTranslate
        let st₂ := { st₁ with nGemini := st₁.nGemini + 1 }
        match cfg.gemini prompt with
        | none => (none, st₂)
        | some raw =>
          let translatedText := jsTrim raw
          let st₃ := { st₂ with nCacheWrites := st₂.nCacheWrites + 1 }
          if cfg.transWriteFails then (none, st₃)
          else (some translatedText,
            { st₃ with transCache := (cacheKey, translatedText) :: st₃.transCache })

/-- server.js:374: the batch separator. -/
def separador : String := "|||"

/-- server.js:388: the ES→EN batch prompt over the joined inventory names. -/
def searchEsEnPrompt (joined : String) : String :=
  "Translate the following list of kitchen ingredients to English. Keep the exact same separator (\"" ++
    separador ++ "\") between each item: \"" ++ joined ++ "\""

/-- server.js:446: the EN→ES batch prompt over the joined recipe titles. -/
def searchTitlesPrompt (joined : String) : String :=
  "Translate the following list of recipe titles to Spanish. Keep the exact same separator (\"" ++
    separador ++ "\") between each item: \"" ++ joined ++ "\""

/-- server.js:462: the EN→ES batch prompt over the joined missed-ingredient
strings. -/
def searchMissingPrompt (joined : String) : String :=
  "Translate the following list of kitchen ingredients to Spanish. Keep the exact same separator (\"" ++
    separador ++ "\") between each item: \"" ++ joined ++ "\""

/-- Query-string filter parameters of the search route (absent = `none`;
MongoDB query values arrive as strings). -/
structure Filters where
  diet : Option String
  maxCalories : Option String
  maxCarbs : Option String
  maxProtein : Option String
  maxSugar : Option String
deriving DecidableEq

/-- A request with no filter parameters. -/
def Filters.none' : Filters := ⟨none, none, none, none, none⟩

/-- server.js:403: `if (diet && diet !== 'none' && diet !== '') ...`. -/
def dietPart (f : Filters) : String :=
  match f.diet with
  | some d => if d ≠ "none" ∧ d ≠ "" then "&diet=" ++ d else ""
  | none => ""

/-- server.js:404-407: `if (maxX) ...` — an empty string is falsy. -/
def numPart (label : String) (v : Option String) : String :=
  match v with
  | some s => if s ≠ "" then "&" ++ label ++ "=" ++ s else ""
  | none => ""

/-- server.js:402-407: the accumulated `filtersQueryString`. -/
def filtersQueryString (f : Filters) : String :=
  dietPart f ++ numPart "maxCalories" f.maxCalories ++ numPart "maxCarbs" f.maxCarbs ++
    numPart "maxProtein" f.maxProtein ++ numPart "maxSugar" f.maxSugar

/-- server.js:411: the Spoonacular search cache key. -/
def spoonacularSearchCacheKey (ingredientsCommaSeparated : String) (f : Filters) : String :=
  "spoonacular:search:" ++ ingredientsCommaSeparated ++ ":sort=min-missing-ingredients:" ++
    filtersQueryString f

/-- The key as a function of the translated (English) ingredient name list:
sort (server.js:397), comma-join (server.js:398), then build the cache key. -/
def fullSearchKey (englishIngredients : List String) (f : Filters) : String :=
  spoonacularSearchCacheKey (String.intercalate "," (jsSortStrings englishIngredients)) f

/-- HTTP outcome of the search route: a 200 with the translated recipe list,
or an error response with its status and the `details` field. -/
inductive SearchOutcome where
  | ok (recipes : List Recipe)
  | err (status : Nat) (details : String)
deriving DecidableEq

/-- server.js:438-499: the EN→ES response-translation phase of the search
route, entered with the (cached or fresh) result list `data`.  The two batch
translations run under `Promise.all`; they are linearized titles-first
(an admissible schedule — neither creates results the other reads). -/
def afterSearch (cfg : Config) (st : St) (data : List Recipe) : SearchOutcome × St :=
  if data.length = 0 then (.ok [], st)
  else
    let englishTitles := data.map (fun r => r.title)
    let joinedEnglishTitles := String.intercalate separador englishTitles
    let titlesStep := translateText cfg st (searchTitlesPrompt joinedEnglishTitles) "en" "es"
    let allMissingIngredients := flatMissedOriginals data
    let missingStep :=
      if allMissingIngredients.length > 0 then
        translateText cfg titlesStep.2
          (searchMissingPrompt (String.intercalate separador allMissingIngredients)) "en" "es"
      else (none, titlesStep.2)
    let translatedTitles := jsSplitTrimOrEmpty titlesStep.1
    let translatedMissing := jsSplitTrimOrEmpty missingStep.1
    (.ok (translatedDataSearch data translatedTitles translatedMissing), missingStep.2)

/-- server.js:372-505: the `GET /api/recetas/inventario` handler, starting
from the user's inventory names (`spanishIngredients`, server.js:380).  Any
`throw` inside the big `try` lands in the `catch` at server.js:501-504,
which answers 500 with the error's message as `details`. -/
def buscarRecetas (cfg : Config) (st : St) (spanishIngredients : List String)
    (filters : Filters) : SearchOutcome × St :=
  if spanishIngredients.length = 0 then (.ok [], st)
  else
    let joinedSpanishIngredients := String.intercalate separador spanishIngredients
    let step := translateText cfg st (searchEsEnPrompt joinedSpanishIngredients) "es" "en"
    match step with
    | (none, st') => (.err 500 "La traducción de ingredientes (ES->EN) falló.", st')
    | (some translatedIngredientsString, st') =>
      let englishIngredients := (split3 translatedIngredientsString).map jsTrim
      let ingredientsCommaSeparated := String.intercalate "," (jsSortStrings englishIngredients)
      let key := spoonacularSearchCacheKey ingredientsCommaSeparated filters
      let st₁ := { st' with nCacheReads := st'.nCacheReads + 1 }
      if cfg.searchReadFails then (.err 500 storeErrorMessage, st₁)
      else
        match findOne st₁.searchCache key with
        | some data => afterSearch cfg st₁ data
        | none =>
          let st₂ := { st₁ with nSpoon := st₁.nSpoon + 1 }
          match cfg.spoon ingredientsCommaSeparated (filtersQueryString filters) with
          | .httpErr _ => (.err 500 "Error al llamar a Spoonacular API (Search).", st₂)
          | .ok results =>
            let st₃ := { st₂ with nCacheWrites := st₂.nCacheWrites + 1 }
            if cfg.searchWriteFails then (.err 500 storeErrorMessage, st₃)
            else afterSearch cfg
              { st₃ with searchCache := (key, results) :: st₃.searchCache } results

/-- HTTP outcome of the detail route. -/
inductive DetailOutcome where
  | ok (data : RecipeDetail)
  | err (status : Nat) (msg : String)
deriving DecidableEq

/-- server.js:518: the details cache key. -/
def spoonacularDetailsCacheKey (recipeId : String) : String :=
  "spoonacular:details:" ++ recipeId

/-- server.js:572: the EN→ES batch prompt over the joined ingredient
display strings. -/
def detailsIngredientsPrompt (joined : String) : String :=
  "Translate the following list of ingredients to Spanish. Keep the exact same separator (\"" ++
    separador ++ "\") between each item: \"" ++ joined ++ "\""

/-- server.js:555-614: the translation phase of the detail route — the four
`Promise.all` translation calls (linearized in declaration order) and the
final reassembly. -/
def detallesTranslatePhase (cfg : Config) (st : St) (data : RecipeDetail) :
    DetailOutcome × St :=
  let s₁ := translateText cfg st data.title "en" "es"
  let s₂ := translateText cfg s₁.2 data.summary "en" "es"
  let s₃ := translateText cfg s₂.2 data.instructions "en" "es"
  let originalIngredientStrings := data.extendedIngredients.map (fun ing => ing.original)
  let joinedIngredientString := String.intercalate separador originalIngredientStrings
  let s₄ := translateText cfg s₃.2 (detailsIngredientsPrompt joinedIngredientString) "en" "es"
  (.ok (translatedDataDetail data s₁.1 s₂.1 s₃.1 s₄.1), s₄.2)

/-- server.js:513-620: the `GET /api/recetas/detalles/:recipeId` handler.
A non-OK Spoonacular response is forwarded with the provider's status
(server.js:543); any other throw lands in the catch at server.js:616-619,
which answers 500. -/
def detallesReceta (cfg : Config) (st : St) (recipeId : String) : DetailOutcome × St :=
  let key := spoonacularDetailsCacheKey recipeId
  let st₁ := { st with nCacheReads := st.nCacheReads + 1 }
  if cfg.detailReadFails then
    (.err 500 "Error interno del servidor al buscar detalles de receta.", st₁)
  else
    match findOne st₁.detailCache key with
    | some data => detallesTranslatePhase cfg st₁ data
    | none =>
      let st₂ := { st₁ with nSpoon := st₁.nSpoon + 1 }
      match cfg.spoonDetail recipeId with
      | .httpErr status => (.err status "Error de la API externa al obtener detalles.", st₂)
      | .ok data =>
        let st₃ := { st₂ with nCacheWrites := st₂.nCacheWrites + 1 }
        if cfg.detailWriteFails then
          (.err 500 "Error interno del servidor al buscar detalles de receta.", st₃)
        else detallesTranslatePhase cfg
          { st₃ with detailCache := (key, data) :: st₃.detailCache } data

/-- CacheEntryModel.js:77-83: `expires: '23h'` on `createdAt`, in seconds. -/
def ttlSeconds : Nat := 23 * 60 * 60

/-- A stored cache document with its `createdAt` timestamp (seconds). -/
structure TimedEntry where
  createdAt : Nat
  data : String
deriving DecidableEq

/-- Modelled from the spec: the repository only declares the TTL index
(`expires: '23h'` in CacheEntryModel.js); the expiry semantics itself is
executed by MongoDB, which is not part of the repository.  Following §4.1 of
the spec, an entry "becomes unreadable once `now - createdAt` exceeds a
fixed TTL", and reading is passive (no mutation, no explicit deletion). -/
def cacheGetAt (entries : List (String × TimedEntry)) (key : String) (now : Nat) :
    Option String :=
  match findOne entries key with
  | some e => if now - e.createdAt > ttlSeconds then none else some e.data
  | none => none

/-- The value of the diet filter if it is active (server.js:403), else `none`. -/
def activeDiet (f : Filters) : Option String :=
  match f.diet with
  | some d => if d ≠ "none" ∧ d ≠ "" then some d else none
  | none => none

/-- The value of a numeric filter if it is active (non-absent, non-empty). -/
def activeNum (v : Option String) : Option String :=
  match v with
  | some s => if s ≠ "" then some s else none
  | none => none

/-- The five active filter values of a request — what the spec calls "the
active dietary/nutritional filter parameters". -/
def activeView (f : Filters) :
    Option String × Option String × Option String × Option String × Option String :=
  (activeDiet f, activeNum f.maxCalories, activeNum f.maxCarbs,
    activeNum f.maxProtein, activeNum f.maxSugar)

/-- Concatenation of a list of character lists. -/
def catList : List (List Char) → List Char
  | [] => []
  | s :: rest => s ++ catList rest

/-- The segment contributed by one optional filter. -/
def optSeg (lab : List Char) : Option (List Char) → List (List Char)
  | some v => [lab ++ v]
  | none => []

/-- `l` starts with the character pattern `p`. -/
def leadsWith (p l : List Char) : Prop := ∃ t, l = p ++ t

def dietLab : List Char := ['&', 'd', 'i', 'e', 't', '=']

def calLab : List Char :=
  ['&', 'm', 'a', 'x', 'C', 'a', 'l', 'o', 'r', 'i', 'e', 's', '=']

def carbLab : List Char := ['&', 'm', 'a', 'x', 'C', 'a', 'r', 'b', 's', '=']

def protLab : List Char :=
  ['&', 'm', 'a', 'x', 'P', 'r', 'o', 't', 'e', 'i', 'n', '=']

def sugarLab : List Char := ['&', 'm', 'a', 'x', 'S', 'u', 'g', 'a', 'r', '=']

/-- The segment list underlying `filtersQueryString f`. -/
def segsChar (f : Filters) : List (List Char) :=
  optSeg dietLab ((activeDiet f).map String.data) ++
    optSeg calLab ((activeNum f.maxCalories).map String.data) ++
    optSeg carbLab ((activeNum f.maxCarbs).map String.data) ++
    optSeg protLab ((activeNum f.maxProtein).map String.data) ++
    optSeg sugarLab ((activeNum f.maxSugar).map String.data)

/-- Does a character list contain an ampersand? -/
def hasAmp : List Char → Bool
  | [] => false
  | c :: rest => if c = '&' then true else hasAmp rest

/-- No active occurrence of `'&'` in an optional value. -/
def ampOk (o : Option String) : Bool :=
  match o with
  | some v => !(hasAmp v.data)
  | none => true

/-- None of the active filter values contains the `'&'` character. -/
def ampFree (f : Filters) : Bool :=
  ampOk (activeDiet f) && ampOk (activeNum f.maxCalories) &&
    ampOk (activeNum f.maxCarbs) && ampOk (activeNum f.maxProtein) &&
    ampOk (activeNum f.maxSugar)

/-- The last four segments of `segsChar`, right-associated. -/
def segsTail4 (f : Filters) : List (List Char) :=
  optSeg calLab ((activeNum f.maxCalories).map String.data) ++
    (optSeg carbLab ((activeNum f.maxCarbs).map String.data) ++
      (optSeg protLab ((activeNum f.maxProtein).map String.data) ++
        optSeg sugarLab ((activeNum f.maxSugar).map String.data)))

/-- The last three segments of `segsChar`, right-associated. -/
def segsTail3 (f : Filters) : List (List Char) :=
  optSeg carbLab ((activeNum f.maxCarbs).map String.data) ++
    (optSeg protLab ((activeNum f.maxProtein).map String.data) ++
      optSeg sugarLab ((activeNum f.maxSugar).map String.data))

/-- The last two segments of `segsChar`, right-associated. -/
def segsTail2 (f : Filters) : List (List Char) :=
  optSeg protLab ((activeNum f.maxProtein).map String.data) ++
    optSeg sugarLab ((activeNum f.maxSugar).map String.data)

/-- The search flow's reassembled output as a function of the two raw batch
translation responses (`translatedTitlesString`, `translatedMissingString`),
exactly as server.js:475-496 computes it. -/
def searchOut (data : List Recipe) (respT respM : Option String) : List Recipe :=
  translatedDataSearch data (jsSplitTrimOrEmpty respT) (jsSplitTrimOrEmpty respM)

/-- Demo inputs for the C1 witness: the spec's scenario — a batch of three
titles whose translation comes back with only two pieces. -/
def c1Data : List Recipe :=
  [⟨1, "pan", "i1", [], "a"⟩, ⟨2, "leche", "i2", [], "b"⟩, ⟨3, "huevo", "i3", [], "c"⟩]

def c1Det : RecipeDetail := ⟨7, "t", "s", "i", "img", [⟨1, 2, "g", "egg", "x"⟩], "r"⟩

def c4Det : RecipeDetail :=
  ⟨716429, "Pasta", "sum", "inst", "img.png", [⟨11, 2, "cups", "2 cups flour", "meta"⟩], "extra"⟩

def c3Cfg : Config :=
  ⟨true, fun _ => some " hola ", fun _ _ => .ok [], fun _ => .httpErr 404,
    false, false, false, false, false, false⟩

def c2Cfg : Config :=
  ⟨false, fun _ => none, fun _ _ => .ok [⟨5, "Toast", "im", [], "r"⟩], fun _ => .httpErr 404,
    false, false, false, false, false, false⟩

def c5ReadCfg : Config :=
  ⟨true, fun _ => some "hello", fun _ _ => .ok [], fun _ => .httpErr 404,
    true, false, false, false, false, false⟩

def c5WriteCfg : Config :=
  ⟨true, fun _ => some "hello", fun _ _ => .ok [], fun _ => .httpErr 404,
    false, true, false, false, false, false⟩

def c5SearchCfg : Config :=
  ⟨true, fun _ => some "egg", fun _ _ => .ok [], fun _ => .httpErr 404,
    false, false, true, false, false, false⟩

def c7F1 : Filters := ⟨some "vegan&maxCalories=100", none, none, none, none⟩

def c7F2 : Filters := ⟨some "vegan", some "100", none, none, none⟩

def c8Cfg : Config :=
  ⟨true, fun _ => some "egg", fun _ _ => .httpErr 402, fun _ => .httpErr 402,
    false, false, false, false, false, false⟩

def c8wCfg : Config :=
  ⟨true, fun _ => some "egg", fun _ _ => .httpErr 429, fun _ => .httpErr 429,
    false, false, false, false, false, false⟩

/-! ### Theorems -/

/-! ### Order facts about `charListLe`, needed for the sort of ingredients -/

theorem charListLe_total : ∀ l₁ l₂, charListLe l₁ l₂ = true ∨ charListLe l₂ l₁ = true := by
  intro l₁
  induction l₁ with
  | nil => intro l₂; left; rfl
  | cons a as ih =>
    intro l₂
    cases l₂ with
    | nil => right; rfl
    | cons b bs =>
      rcases lt_trichotomy a b with hab | hab | hab
      · left; simp [charListLe, hab]
      · subst hab
        rcases ih bs with h | h
        · left; simpa [charListLe] using h
        · right; simpa [charListLe] using h
      · right; simp [charListLe, hab]

theorem charListLe_antisymm :
    ∀ l₁ l₂, charListLe l₁ l₂ = true → charListLe l₂ l₁ = true → l₁ = l₂ := by
  intro l₁
  induction l₁ with
  | nil =>
    intro l₂ _ h₂
    cases l₂ with
    | nil => rfl
    | cons b bs => simp [charListLe] at h₂
  | cons a as ih =>
    intro l₂ h₁ h₂
    cases l₂ with
    | nil => simp [charListLe] at h₁
    | cons b bs =>
      rcases lt_trichotomy a b with hab | hab | hab
      · simp [charListLe, hab, asymm hab] at h₂
      · subst hab
        simp only [charListLe, lt_irrefl, if_false] at h₁ h₂
        exact congrArg (a :: ·) (ih bs h₁ h₂)
      · simp [charListLe, hab, asymm hab] at h₁

theorem charListLe_trans :
    ∀ l₁ l₂ l₃, charListLe l₁ l₂ = true → charListLe l₂ l₃ = true →
      charListLe l₁ l₃ = true := by
  intro l₁
  induction l₁ with
  | nil => intro l₂ l₃ _ _; rfl
  | cons a as ih =>
    intro l₂ l₃ h₁ h₂
    cases l₂ with
    | nil => simp [charListLe] at h₁
    | cons b bs =>
      cases l₃ with
      | nil => simp [charListLe] at h₂
      | cons c cs =>
        rcases lt_trichotomy a b with hab | hab | hab
        · rcases lt_trichotomy b c with hbc | hbc | hbc
          · simp [charListLe, lt_trans hab hbc]
          · subst hbc; simp [charListLe, hab]
          · simp [charListLe, hbc, asymm hbc] at h₂
        · subst hab
          rcases lt_trichotomy a c with hac | hac | hac
          · simp [charListLe, hac]
          · subst hac
            simp only [charListLe, lt_irrefl, if_false] at h₁ h₂ ⊢
            exact ih bs cs h₁ h₂
          · simp [charListLe, hac, asymm hac] at h₂
        · simp [charListLe, hab, asymm hab] at h₁

theorem String.eq_of_data_eq {s t : String} (h : s.data = t.data) : s = t := by
  cases s; cases t; exact congrArg String.mk h

theorem jsSortStrings_eq_of_perm {l₁ l₂ : List String} (h : l₁.Perm l₂) :
    jsSortStrings l₁ = jsSortStrings l₂ := by
  haveI : IsTotal String strLeRel := ⟨fun a b => charListLe_total a.data b.data⟩
  haveI : IsTrans String strLeRel :=
    ⟨fun a b c hab hbc => charListLe_trans a.data b.data c.data hab hbc⟩
  haveI : IsAntisymm String strLeRel :=
    ⟨fun a b hab hba => String.eq_of_data_eq (charListLe_antisymm a.data b.data hab hba)⟩
  exact List.eq_of_perm_of_sorted
    ((List.perm_insertionSort _ _).trans (h.trans (List.perm_insertionSort _ _).symm))
    (List.sorted_insertionSort _ _) (List.sorted_insertionSort _ _)

/-! ### Characterization lemmas for the reassemblies -/

theorem translateRecipeMissed_snd (tm : List String) :
    ∀ (ings : List MissedIngredient) (idx : Nat),
      (translateRecipeMissed tm idx ings).2 = idx + ings.length := by
  intro ings
  induction ings with
  | nil => intro idx; simp [translateRecipeMissed]
  | cons ing rest ih =>
    intro idx
    simp [translateRecipeMissed, ih (idx + 1)]
    omega

theorem translateRecipeMissed_length (tm : List String) :
    ∀ (ings : List MissedIngredient) (idx : Nat),
      (translateRecipeMissed tm idx ings).1.length = ings.length := by
  intro ings
  induction ings with
  | nil => intro idx; simp [translateRecipeMissed]
  | cons ing rest ih => intro idx; simp [translateRecipeMissed, ih (idx + 1)]

theorem translatedDataSearchGo_length (tt tm : List String) :
    ∀ (data : List Recipe) (ridx midx : Nat),
      (translatedDataSearchGo tt tm ridx midx data).length = data.length := by
  intro data
  induction data with
  | nil => intro ridx midx; rfl
  | cons r rest ih => intro ridx midx; simp [translatedDataSearchGo, ih]

theorem translatedDataSearch_length (data : List Recipe) (tt tm : List String) :
    (translatedDataSearch data tt tm).length = data.length :=
  translatedDataSearchGo_length tt tm data 0 0

theorem jsIndex_of_ge {pieces : List String} {i : Nat} (h : pieces.length ≤ i)
    (orig : String) : jsIndex pieces i orig = orig := by
  simp [jsIndex, Nat.not_lt.mpr h]

theorem jsIndex_of_empty {pieces : List String} {i : Nat}
    (h : pieces[i]? = some "") (orig : String) : jsIndex pieces i orig = orig := by
  have hi : i < pieces.length := by
    by_contra hc
    simp [List.getElem?_eq_none (Nat.not_lt.mp hc)] at h
  have hg : pieces[i] = "" := by
    have h2 : pieces[i]? = some pieces[i] := List.getElem?_eq_getElem hi
    rw [h] at h2
    exact (Option.some.inj h2).symm
  simp [jsIndex, hi, hg]

theorem jsIndex_of_piece {pieces : List String} {i : Nat} {s : String}
    (h : pieces[i]? = some s) (hne : s ≠ "") (orig : String) :
    jsIndex pieces i orig = s := by
  have hi : i < pieces.length := by
    by_contra hc
    simp [List.getElem?_eq_none (Nat.not_lt.mp hc)] at h
  have hg : pieces[i] = s := by
    have h2 : pieces[i]? = some pieces[i] := List.getElem?_eq_getElem hi
    rw [h] at h2
    exact (Option.some.inj h2).symm
  simp [jsIndex, hi, hg, hne]

theorem detailPiece_of_ge {pieces : List String} {i : Nat} (h : pieces.length ≤ i)
    (orig : String) : detailPiece pieces i orig = orig := by
  simp [detailPiece, Nat.not_lt.mpr h]

theorem detailPiece_of_empty {pieces : List String} {i : Nat}
    (h : pieces[i]? = some "") (orig : String) : detailPiece pieces i orig = orig := by
  have hi : i < pieces.length := by
    by_contra hc
    simp [List.getElem?_eq_none (Nat.not_lt.mp hc)] at h
  have hg : pieces[i] = "" := by
    have h2 : pieces[i]? = some pieces[i] := List.getElem?_eq_getElem hi
    rw [h] at h2
    exact (Option.some.inj h2).symm
  simp [detailPiece, hi, hg]

theorem detailPiece_of_piece {pieces : List String} {i : Nat} {s : String}
    (h : pieces[i]? = some s) (hne : s ≠ "") (orig : String) :
    detailPiece pieces i orig = jsTrim s := by
  have hi : i < pieces.length := by
    by_contra hc
    simp [List.getElem?_eq_none (Nat.not_lt.mp hc)] at h
  have hg : pieces[i] = s := by
    have h2 : pieces[i]? = some pieces[i] := List.getElem?_eq_getElem hi
    rw [h] at h2
    exact (Option.some.inj h2).symm
  simp [detailPiece, hi, hg, hne]

theorem mapFrom_length (tm : List String) :
    ∀ (l : List String) (j : Nat), (mapFrom tm j l).length = l.length := by
  intro l
  induction l with
  | nil => intro j; rfl
  | cons o rest ih => intro j; simp [mapFrom, ih]

theorem mapFrom_append (tm : List String) :
    ∀ (a b : List String) (j : Nat),
      mapFrom tm j (a ++ b) = mapFrom tm j a ++ mapFrom tm (j + a.length) b := by
  intro a
  induction a with
  | nil => intro b j; simp [mapFrom]
  | cons o rest ih =>
    intro b j
    have harith : j + 1 + rest.length = j + (rest.length + 1) := by omega
    simp [mapFrom, ih b (j + 1), harith]

theorem mapFrom_get (tm : List String) :
    ∀ (l : List String) (j i : Nat) (h : i < l.length)
      (h' : i < (mapFrom tm j l).length),
      (mapFrom tm j l).get ⟨i, h'⟩ = jsIndex tm (j + i) (l.get ⟨i, h⟩) := by
  intro l
  induction l with
  | nil => intro j i h; exact absurd h (by simp)
  | cons o rest ih =>
    intro j i h h'
    cases i with
    | zero => simp [mapFrom]
    | succ n =>
      have := ih (j + 1) n (by simpa using h) (by simpa [mapFrom] using h')
      have harith : j + 1 + n = j + (n + 1) := by omega
      rw [harith] at this
      simpa [mapFrom] using this

theorem translateRecipeMissed_originals (tm : List String) :
    ∀ (ings : List MissedIngredient) (idx : Nat),
      (translateRecipeMissed tm idx ings).1.map (fun ing => ing.original) =
        mapFrom tm idx (ings.map (fun ing => ing.original)) := by
  intro ings
  induction ings with
  | nil => intro idx; rfl
  | cons ing rest ih => intro idx; simp [translateRecipeMissed, mapFrom, ih (idx + 1)]

theorem translateRecipeMissed_frame (tm : List String) :
    ∀ (ings : List MissedIngredient) (idx : Nat),
      (translateRecipeMissed tm idx ings).1.map
          (fun ing => (ing.id, ing.amount, ing.unit, ing.rest)) =
        ings.map (fun ing => (ing.id, ing.amount, ing.unit, ing.rest)) := by
  intro ings
  induction ings with
  | nil => intro idx; rfl
  | cons ing rest ih => intro idx; simp [translateRecipeMissed, ih (idx + 1)]

theorem flat_translatedDataSearchGo (tt tm : List String) :
    ∀ (data : List Recipe) (ridx midx : Nat),
      flatMissedOriginals (translatedDataSearchGo tt tm ridx midx data) =
        mapFrom tm midx (flatMissedOriginals data) := by
  intro data
  induction data with
  | nil => intro ridx midx; rfl
  | cons r rest ih =>
    intro ridx midx
    simp only [translatedDataSearchGo, flatMissedOriginals]
    rw [translateRecipeMissed_originals, ih,
      translateRecipeMissed_snd, mapFrom_append]
    simp

theorem translatedDataSearchGo_get (tt tm : List String) :
    ∀ (data : List Recipe) (ridx midx i : Nat) (h : i < data.length)
      (h' : i < (translatedDataSearchGo tt tm ridx midx data).length),
      ∃ midx', (translatedDataSearchGo tt tm ridx midx data).get ⟨i, h'⟩ =
        { data.get ⟨i, h⟩ with
            title := jsIndex tt (ridx + i) ((data.get ⟨i, h⟩).title),
            missedIngredients :=
              (translateRecipeMissed tm midx' ((data.get ⟨i, h⟩).missedIngredients)).1 } := by
  intro data
  induction data with
  | nil => intro _ _ i h; exact absurd h (by simp)
  | cons r rest ih =>
    intro ridx midx i h h'
    cases i with
    | zero => exact ⟨midx, by simp [translatedDataSearchGo]⟩
    | succ n =>
      have hn : n < rest.length := by simpa using h
      have hn' : n < (translatedDataSearchGo tt tm (ridx + 1)
          (translateRecipeMissed tm midx r.missedIngredients).2 rest).length := by
        simpa [translatedDataSearchGo_length] using hn
      obtain ⟨m', hm⟩ := ih (ridx + 1) (translateRecipeMissed tm midx r.missedIngredients).2 n hn hn'
      have harith : ridx + 1 + n = ridx + (n + 1) := by omega
      rw [harith] at hm
      exact ⟨m', by simpa [translatedDataSearchGo] using hm⟩

theorem translateIngredients_length (pieces : List String) :
    ∀ (ings : List Ingredient) (j : Nat),
      (translateIngredients pieces j ings).length = ings.length := by
  intro ings
  induction ings with
  | nil => intro j; rfl
  | cons ing rest ih => intro j; simp [translateIngredients, ih]

theorem translateIngredients_get (pieces : List String) :
    ∀ (ings : List Ingredient) (j i : Nat) (h : i < ings.length)
      (h' : i < (translateIngredients pieces j ings).length),
      (translateIngredients pieces j ings).get ⟨i, h'⟩ =
        { ings.get ⟨i, h⟩ with
            original := detailPiece pieces (j + i) ((ings.get ⟨i, h⟩).original) } := by
  intro ings
  induction ings with
  | nil => intro j i h; exact absurd h (by simp)
  | cons ing rest ih =>
    intro j i h h'
    cases i with
    | zero => simp [translateIngredients]
    | succ n =>
      have hn : n < rest.length := by simpa using h
      have hn' : n < (translateIngredients pieces (j + 1) rest).length := by
        simpa [translateIngredients_length] using hn
      have := ih (j + 1) n hn hn'
      have harith : j + 1 + n = j + (n + 1) := by omega
      rw [harith] at this
      simpa [translateIngredients] using this

theorem strAppendData (a b : String) : (a ++ b).data = a.data ++ b.data := rfl

theorem catList_nil : catList [] = [] := rfl

theorem catList_cons (s : List Char) (rest : List (List Char)) :
    catList (s :: rest) = s ++ catList rest := rfl

theorem catList_append : ∀ (a b : List (List Char)),
    catList (a ++ b) = catList a ++ catList b := by
  intro a
  induction a with
  | nil => intro b; rfl
  | cons s rest ih => intro b; simp [catList_cons, ih, List.append_assoc]

theorem hasAmp_false_not_mem : ∀ l, hasAmp l = false → '&' ∉ l := by
  intro l
  induction l with
  | nil => intro _ h; simp at h
  | cons c rest ih =>
    intro h hm
    by_cases hc : c = '&'
    · simp [hasAmp, hc] at h
    · rcases List.mem_cons.mp hm with h1 | h1
      · exact hc h1.symm
      · exact ih (by simpa [hasAmp, hc] using h) h1

theorem dietPart_data (f : Filters) :
    (dietPart f).data = catList (optSeg dietLab ((activeDiet f).map String.data)) := by
  cases hfd : f.diet with
  | none => simp [dietPart, activeDiet, hfd, optSeg, catList_nil]
  | some d =>
    by_cases hd : d ≠ "none" ∧ d ≠ ""
    · simp [dietPart, activeDiet, hfd, hd, optSeg, catList_cons, catList_nil,
        strAppendData, dietLab, show "&diet=".data = dietLab from rfl]
    · simp [dietPart, activeDiet, hfd, hd, optSeg, catList_nil]

theorem numPart_data (label : String) (v : Option String) :
    (numPart label v).data =
      catList (optSeg ('&' :: (label.data ++ ['='])) ((activeNum v).map String.data)) := by
  cases v with
  | none => rfl
  | some s =>
    by_cases hs : s ≠ ""
    · simp [numPart, activeNum, hs, optSeg, catList_cons, catList_nil, strAppendData,
        show "&".data = ['&'] from rfl, show "=".data = ['='] from rfl]
    · simp [numPart, activeNum, hs, optSeg, catList_nil]

theorem filtersQueryString_data (f : Filters) :
    (filtersQueryString f).data = catList (segsChar f) := by
  unfold filtersQueryString segsChar
  rw [strAppendData, strAppendData, strAppendData, strAppendData,
    dietPart_data, numPart_data, numPart_data, numPart_data, numPart_data,
    catList_append, catList_append, catList_append, catList_append]
  have hcal : ('&' :: ("maxCalories".data ++ ['='])) = calLab := rfl
  have hcarb : ('&' :: ("maxCarbs".data ++ ['='])) = carbLab := rfl
  have hprot : ('&' :: ("maxProtein".data ++ ['='])) = protLab := rfl
  have hsugar : ('&' :: ("maxSugar".data ++ ['='])) = sugarLab := rfl
  rw [hcal, hcarb, hprot, hsugar, List.append_assoc, List.append_assoc, List.append_assoc]

theorem headSplit : ∀ (t₁ : List Char) (t₂ r₁ r₂ : List Char),
    '&' ∉ t₁ → '&' ∉ t₂ →
    (r₁ = [] ∨ ∃ u, r₁ = '&' :: u) → (r₂ = [] ∨ ∃ u, r₂ = '&' :: u) →
    t₁ ++ r₁ = t₂ ++ r₂ → t₁ = t₂ ∧ r₁ = r₂ := by
  intro t₁
  induction t₁ with
  | nil =>
    intro t₂ r₁ r₂ _ ha₂ hr₁ hr₂ heq
    cases t₂ with
    | nil => exact ⟨rfl, by simpa using heq⟩
    | cons c t₂' =>
      exfalso
      have hc : c ≠ '&' := fun h => ha₂ (h ▸ List.mem_cons_self c t₂')
      rcases hr₁ with h | ⟨u, hu⟩
      · subst h; simp at heq
      · subst hu
        have : '&' = c := by simpa using congrArg (fun l => l.head?) heq
        exact hc this.symm
  | cons a t₁' ih =>
    intro t₂ r₁ r₂ ha₁ ha₂ hr₁ hr₂ heq
    cases t₂ with
    | nil =>
      exfalso
      have hc : a ≠ '&' := fun h => ha₁ (h ▸ List.mem_cons_self a t₁')
      rcases hr₂ with h | ⟨u, hu⟩
      · subst h; simp at heq
      · subst hu
        have : a = '&' := by simpa using congrArg (fun l => l.head?) heq
        exact hc this
    | cons b t₂' =>
      have hab : a = b := by simpa using congrArg (fun l => l.head?) heq
      subst hab
      have htail : t₁' ++ r₁ = t₂' ++ r₂ := by simpa using heq
      have h₁ : '&' ∉ t₁' := fun h => ha₁ (List.mem_cons_of_mem a h)
      have h₂ : '&' ∉ t₂' := fun h => ha₂ (List.mem_cons_of_mem a h)
      obtain ⟨he, hr⟩ := ih t₂' r₁ r₂ h₁ h₂ hr₁ hr₂ htail
      exact ⟨by rw [he], hr⟩

theorem catList_head : ∀ (L : List (List Char)),
    (∀ s ∈ L, ∃ t, s = '&' :: t) →
    catList L = [] ∨ ∃ u, catList L = '&' :: u := by
  intro L
  induction L with
  | nil => intro _; left; rfl
  | cons s rest _ =>
    intro h
    obtain ⟨t, ht⟩ := h s (List.mem_cons_self s rest)
    right
    exact ⟨t ++ catList rest, by simp [catList_cons, ht]⟩

theorem catListInj : ∀ (L₁ L₂ : List (List Char)),
    (∀ s ∈ L₁, ∃ t, s = '&' :: t ∧ '&' ∉ t) →
    (∀ s ∈ L₂, ∃ t, s = '&' :: t ∧ '&' ∉ t) →
    catList L₁ = catList L₂ → L₁ = L₂ := by
  intro L₁
  induction L₁ with
  | nil =>
    intro L₂ _ h₂ heq
    cases L₂ with
    | nil => rfl
    | cons s rest =>
      obtain ⟨t, ht, _⟩ := h₂ s (List.mem_cons_self s rest)
      exfalso
      rw [catList_nil, catList_cons, ht] at heq
      simp at heq
  | cons s₁ rest₁ ih =>
    intro L₂ h₁ h₂ heq
    cases L₂ with
    | nil =>
      obtain ⟨t, ht, _⟩ := h₁ s₁ (List.mem_cons_self s₁ rest₁)
      exfalso
      rw [catList_cons, catList_nil, ht] at heq
      simp at heq
    | cons s₂ rest₂ =>
      obtain ⟨t₁, ht₁, hamp₁⟩ := h₁ s₁ (List.mem_cons_self s₁ rest₁)
      obtain ⟨t₂, ht₂, hamp₂⟩ := h₂ s₂ (List.mem_cons_self s₂ rest₂)
      rw [catList_cons, catList_cons, ht₁, ht₂] at heq
      have htail : t₁ ++ catList rest₁ = t₂ ++ catList rest₂ := by simpa using heq
      have hh₁ : catList rest₁ = [] ∨ ∃ u, catList rest₁ = '&' :: u :=
        catList_head rest₁ (fun s hs => by
          obtain ⟨t, ht, _⟩ := h₁ s (List.mem_cons_of_mem s₁ hs); exact ⟨t, ht⟩)
      have hh₂ : catList rest₂ = [] ∨ ∃ u, catList rest₂ = '&' :: u :=
        catList_head rest₂ (fun s hs => by
          obtain ⟨t, ht, _⟩ := h₂ s (List.mem_cons_of_mem s₂ hs); exact ⟨t, ht⟩)
      obtain ⟨he, hr⟩ := headSplit t₁ t₂ (catList rest₁) (catList rest₂) hamp₁ hamp₂ hh₁ hh₂ htail
      have hrest : rest₁ = rest₂ :=
        ih rest₂ (fun s hs => h₁ s (List.mem_cons_of_mem s₁ hs))
          (fun s hs => h₂ s (List.mem_cons_of_mem s₂ hs)) hr
      rw [ht₁, ht₂, he, hrest]

theorem peelSeg (lab : List Char) (o₁ o₂ : Option (List Char)) (r₁ r₂ : List (List Char))
    (h₁ : ∀ s ∈ r₁, ¬ leadsWith lab s) (h₂ : ∀ s ∈ r₂, ¬ leadsWith lab s)
    (heq : optSeg lab o₁ ++ r₁ = optSeg lab o₂ ++ r₂) : o₁ = o₂ ∧ r₁ = r₂ := by
  cases o₁ with
  | none =>
    cases o₂ with
    | none => exact ⟨rfl, by simpa [optSeg] using heq⟩
    | some v =>
      exfalso
      have hmem : (lab ++ v) ∈ r₁ := by
        have : r₁ = (lab ++ v) :: r₂ := by simpa [optSeg] using heq
        rw [this]
        exact List.mem_cons_self _ _
      exact h₁ _ hmem ⟨v, rfl⟩
  | some v₁ =>
    cases o₂ with
    | none =>
      exfalso
      have hmem : (lab ++ v₁) ∈ r₂ := by
        have : (lab ++ v₁) :: r₁ = r₂ := by simpa [optSeg] using heq
        rw [← this]
        exact List.mem_cons_self _ _
      exact h₂ _ hmem ⟨v₁, rfl⟩
    | some v₂ =>
      have h : lab ++ v₁ = lab ++ v₂ ∧ r₁ = r₂ := by simpa [optSeg] using heq
      exact ⟨by rw [List.append_cancel_left h.1], h.2⟩

theorem diet_not_cal : ∀ v, ¬ leadsWith dietLab (calLab ++ v) := by
  intro v h
  rcases h with ⟨t, ht⟩
  simp [dietLab, calLab] at ht

theorem diet_not_carb : ∀ v, ¬ leadsWith dietLab (carbLab ++ v) := by
  intro v h
  rcases h with ⟨t, ht⟩
  simp [dietLab, carbLab] at ht

theorem diet_not_prot : ∀ v, ¬ leadsWith dietLab (protLab ++ v) := by
  intro v h
  rcases h with ⟨t, ht⟩
  simp [dietLab, protLab] at ht

theorem diet_not_sugar : ∀ v, ¬ leadsWith dietLab (sugarLab ++ v) := by
  intro v h
  rcases h with ⟨t, ht⟩
  simp [dietLab, sugarLab] at ht

theorem cal_not_carb : ∀ v, ¬ leadsWith calLab (carbLab ++ v) := by
  intro v h
  rcases h with ⟨t, ht⟩
  simp [calLab, carbLab] at ht

theorem cal_not_prot : ∀ v, ¬ leadsWith calLab (protLab ++ v) := by
  intro v h
  rcases h with ⟨t, ht⟩
  simp [calLab, protLab] at ht

theorem cal_not_sugar : ∀ v, ¬ leadsWith calLab (sugarLab ++ v) := by
  intro v h
  rcases h with ⟨t, ht⟩
  simp [calLab, sugarLab] at ht

theorem carb_not_prot : ∀ v, ¬ leadsWith carbLab (protLab ++ v) := by
  intro v h
  rcases h with ⟨t, ht⟩
  simp [carbLab, protLab] at ht

theorem carb_not_sugar : ∀ v, ¬ leadsWith carbLab (sugarLab ++ v) := by
  intro v h
  rcases h with ⟨t, ht⟩
  simp [carbLab, sugarLab] at ht

theorem prot_not_sugar : ∀ v, ¬ leadsWith protLab (sugarLab ++ v) := by
  intro v h
  rcases h with ⟨t, ht⟩
  simp [protLab, sugarLab] at ht

theorem optSeg_not_leadsWith {lab lab₂ : List Char}
    (hpair : ∀ v, ¬ leadsWith lab (lab₂ ++ v)) (o : Option (List Char)) :
    ∀ s ∈ optSeg lab₂ o, ¬ leadsWith lab s := by
  cases o with
  | none => intro s hs; simp [optSeg] at hs
  | some v =>
    intro s hs
    have : s = lab₂ ++ v := by simpa [optSeg] using hs
    rw [this]
    exact hpair v

theorem optSeg_shape {lab labTail : List Char} (hlab : lab = '&' :: labTail)
    (hTailAmp : '&' ∉ labTail) {o : Option String}
    (ho : ampOk o = true) :
    ∀ s ∈ optSeg lab (o.map String.data), ∃ t, s = '&' :: t ∧ '&' ∉ t := by
  cases o with
  | none => intro s hs; simp [optSeg] at hs
  | some v =>
    intro s hs
    have hsv : s = lab ++ v.data := by simpa [optSeg] using hs
    have hAmpV : '&' ∉ v.data :=
      hasAmp_false_not_mem v.data (by simpa [ampOk] using ho)
    refine ⟨labTail ++ v.data, ?_, ?_⟩
    · rw [hsv, hlab]; rfl
    · intro hm
      rcases List.mem_append.mp hm with h | h
      · exact hTailAmp h
      · exact hAmpV h

theorem segsChar_shape (f : Filters) (hf : ampFree f = true) :
    ∀ s ∈ segsChar f, ∃ t, s = '&' :: t ∧ '&' ∉ t := by
  have h5 : ampOk (activeDiet f) = true ∧ ampOk (activeNum f.maxCalories) = true ∧
      ampOk (activeNum f.maxCarbs) = true ∧ ampOk (activeNum f.maxProtein) = true ∧
      ampOk (activeNum f.maxSugar) = true := by
    simpa [ampFree, Bool.and_eq_true, and_assoc] using hf
  intro s hs
  unfold segsChar at hs
  rcases List.mem_append.mp hs with hs | hs₅
  rcases List.mem_append.mp hs with hs | hs₄
  rcases List.mem_append.mp hs with hs | hs₃
  rcases List.mem_append.mp hs with hs₁ | hs₂
  · exact optSeg_shape (rfl : dietLab = '&' :: _) (by decide) h5.1 s hs₁
  · exact optSeg_shape (rfl : calLab = '&' :: _) (by decide) h5.2.1 s hs₂
  · exact optSeg_shape (rfl : carbLab = '&' :: _) (by decide) h5.2.2.1 s hs₃
  · exact optSeg_shape (rfl : protLab = '&' :: _) (by decide) h5.2.2.2.1 s hs₄
  · exact optSeg_shape (rfl : sugarLab = '&' :: _) (by decide) h5.2.2.2.2 s hs₅

theorem segsTail4_not_diet (f : Filters) : ∀ s ∈ segsTail4 f, ¬ leadsWith dietLab s := by
  intro s hs
  unfold segsTail4 at hs
  rcases List.mem_append.mp hs with h | hs
  · exact optSeg_not_leadsWith diet_not_cal _ s h
  rcases List.mem_append.mp hs with h | hs
  · exact optSeg_not_leadsWith diet_not_carb _ s h
  rcases List.mem_append.mp hs with h | h
  · exact optSeg_not_leadsWith diet_not_prot _ s h
  · exact optSeg_not_leadsWith diet_not_sugar _ s h

theorem segsTail3_not_cal (f : Filters) : ∀ s ∈ segsTail3 f, ¬ leadsWith calLab s := by
  intro s hs
  unfold segsTail3 at hs
  rcases List.mem_append.mp hs with h | hs
  · exact optSeg_not_leadsWith cal_not_carb _ s h
  rcases List.mem_append.mp hs with h | h
  · exact optSeg_not_leadsWith cal_not_prot _ s h
  · exact optSeg_not_leadsWith cal_not_sugar _ s h

theorem segsTail2_not_carb (f : Filters) : ∀ s ∈ segsTail2 f, ¬ leadsWith carbLab s := by
  intro s hs
  unfold segsTail2 at hs
  rcases List.mem_append.mp hs with h | h
  · exact optSeg_not_leadsWith carb_not_prot _ s h
  · exact optSeg_not_leadsWith carb_not_sugar _ s h

theorem mapDataInj : ∀ o₁ o₂ : Option String,
    o₁.map String.data = o₂.map String.data → o₁ = o₂ := by
  intro o₁ o₂ h
  cases o₁ with
  | none =>
    cases o₂ with
    | none => rfl
    | some v => simp at h
  | some v₁ =>
    cases o₂ with
    | none => simp at h
    | some v₂ =>
      have : v₁.data = v₂.data := by simpa using h
      rw [String.eq_of_data_eq this]

theorem segsChar_inj {f₁ f₂ : Filters}
    (heq : segsChar f₁ = segsChar f₂) : activeView f₁ = activeView f₂ := by
  have h₀ : optSeg dietLab ((activeDiet f₁).map String.data) ++ segsTail4 f₁ =
      optSeg dietLab ((activeDiet f₂).map String.data) ++ segsTail4 f₂ := by
    simpa [segsChar, segsTail4, List.append_assoc] using heq
  have pd := peelSeg dietLab ((activeDiet f₁).map String.data)
    ((activeDiet f₂).map String.data) (segsTail4 f₁) (segsTail4 f₂)
    (segsTail4_not_diet f₁) (segsTail4_not_diet f₂) h₀
  have h₁ : optSeg calLab ((activeNum f₁.maxCalories).map String.data) ++ segsTail3 f₁ =
      optSeg calLab ((activeNum f₂.maxCalories).map String.data) ++ segsTail3 f₂ := by
    simpa [segsTail4, segsTail3] using pd.2
  have pc := peelSeg calLab ((activeNum f₁.maxCalories).map String.data)
    ((activeNum f₂.maxCalories).map String.data) (segsTail3 f₁) (segsTail3 f₂)
    (segsTail3_not_cal f₁) (segsTail3_not_cal f₂) h₁
  have h₂ : optSeg carbLab ((activeNum f₁.maxCarbs).map String.data) ++ segsTail2 f₁ =
      optSeg carbLab ((activeNum f₂.maxCarbs).map String.data) ++ segsTail2 f₂ := by
    simpa [segsTail3, segsTail2] using pc.2
  have pb := peelSeg carbLab ((activeNum f₁.maxCarbs).map String.data)
    ((activeNum f₂.maxCarbs).map String.data) (segsTail2 f₁) (segsTail2 f₂)
    (segsTail2_not_carb f₁) (segsTail2_not_carb f₂) h₂
  have h₃ : optSeg protLab ((activeNum f₁.maxProtein).map String.data) ++
      optSeg sugarLab ((activeNum f₁.maxSugar).map String.data) =
      optSeg protLab ((activeNum f₂.maxProtein).map String.data) ++
        optSeg sugarLab ((activeNum f₂.maxSugar).map String.data) := by
    simpa [segsTail2] using pb.2
  have pp := peelSeg protLab ((activeNum f₁.maxProtein).map String.data)
    ((activeNum f₂.maxProtein).map String.data)
    (optSeg sugarLab ((activeNum f₁.maxSugar).map String.data))
    (optSeg sugarLab ((activeNum f₂.maxSugar).map String.data))
    (optSeg_not_leadsWith prot_not_sugar _) (optSeg_not_leadsWith prot_not_sugar _) h₃
  have hsugar : activeNum f₁.maxSugar = activeNum f₂.maxSugar := by
    apply mapDataInj
    rcases hcase : (activeNum f₁.maxSugar).map String.data with _ | v₁ <;>
      rcases hcase' : (activeNum f₂.maxSugar).map String.data with _ | v₂ <;>
        rw [hcase, hcase'] at pp <;> simp [optSeg] at pp ⊢
    exact pp.2
  unfold activeView
  rw [mapDataInj _ _ pd.1, mapDataInj _ _ pc.1, mapDataInj _ _ pb.1,
    mapDataInj _ _ pp.1, hsugar]

theorem filtersQueryString_inj {f₁ f₂ : Filters}
    (h₁ : ampFree f₁ = true) (h₂ : ampFree f₂ = true)
    (heq : filtersQueryString f₁ = filtersQueryString f₂) :
    activeView f₁ = activeView f₂ := by
  have hdata : catList (segsChar f₁) = catList (segsChar f₂) := by
    rw [← filtersQueryString_data, ← filtersQueryString_data, heq]
  exact segsChar_inj
    (catListInj _ _ (segsChar_shape f₁ h₁) (segsChar_shape f₂ h₂) hdata)

theorem spoonacularSearchCacheKey_filters_inj {ing : String} {f₁ f₂ : Filters}
    (h₁ : ampFree f₁ = true) (h₂ : ampFree f₂ = true)
    (heq : spoonacularSearchCacheKey ing f₁ = spoonacularSearchCacheKey ing f₂) :
    activeView f₁ = activeView f₂ := by
  apply filtersQueryString_inj h₁ h₂
  apply String.eq_of_data_eq
  have hd := congrArg String.data heq
  unfold spoonacularSearchCacheKey at hd
  rw [strAppendData, strAppendData] at hd
  exact List.append_cancel_left hd

/-! ### Flow-level helper lemmas -/

theorem translateText_searchCache (cfg : Config) (st : St) (a b c : String) :
    (translateText cfg st a b c).2.searchCache = st.searchCache := by
  simp only [translateText]
  repeat' split
  all_goals rfl

theorem translateText_detailCache (cfg : Config) (st : St) (a b c : String) :
    (translateText cfg st a b c).2.detailCache = st.detailCache := by
  simp only [translateText]
  repeat' split
  all_goals rfl

theorem translateText_noInit (cfg : Config) (st : St) (a b c : String)
    (h : cfg.modelInit = false) : translateText cfg st a b c = (none, st) := by
  unfold translateText
  rw [if_pos h]

theorem translateRecipeMissed_nilTm :
    ∀ (ings : List MissedIngredient) (idx : Nat),
      (translateRecipeMissed ([] : List String) idx ings).1 = ings := by
  intro ings
  induction ings with
  | nil => intro idx; rfl
  | cons ing rest ih =>
    intro idx
    simp [translateRecipeMissed, ih (idx + 1), jsIndex]

theorem translatedDataSearchGo_nilTrans :
    ∀ (data : List Recipe) (ridx midx : Nat),
      translatedDataSearchGo ([] : List String) ([] : List String) ridx midx data = data := by
  intro data
  induction data with
  | nil => intro ridx midx; rfl
  | cons r rest ih =>
    intro ridx midx
    simp [translatedDataSearchGo, translateRecipeMissed_nilTm, jsIndex, ih]

theorem translatedDataSearch_nilTrans (data : List Recipe) :
    translatedDataSearch data [] [] = data :=
  translatedDataSearchGo_nilTrans data 0 0

theorem translateIngredients_nilPieces :
    ∀ (ings : List Ingredient) (j : Nat),
      translateIngredients ([] : List String) j ings = ings := by
  intro ings
  induction ings with
  | nil => intro j; rfl
  | cons ing rest ih =>
    intro j
    simp [translateIngredients, ih (j + 1), detailPiece]

theorem translatedDataDetail_nilTrans (data : RecipeDetail) :
    translatedDataDetail data none none none none = data := by
  simp [translatedDataDetail, jsOr, detailPieces, translateIngredients_nilPieces]

theorem afterSearch_noGemini (cfg : Config) (st : St) (data : List Recipe)
    (h : cfg.modelInit = false) : afterSearch cfg st data = (.ok data, st) := by
  simp only [afterSearch]
  split
  · rename_i hlen
    rw [List.length_eq_zero.mp hlen]
  · simp only [translateText_noInit, h]
    simp [jsSplitTrimOrEmpty, translatedDataSearch_nilTrans]

theorem detallesTranslatePhase_noGemini (cfg : Config) (st : St) (data : RecipeDetail)
    (h : cfg.modelInit = false) : detallesTranslatePhase cfg st data = (.ok data, st) := by
  simp only [detallesTranslatePhase]
  simp only [translateText_noInit, h]
  simp [translatedDataDetail_nilTrans]

theorem translateRecipeMissed_get (tm : List String) :
    ∀ (ings : List MissedIngredient) (idx j : Nat) (hj : j < ings.length)
      (hj' : j < (translateRecipeMissed tm idx ings).1.length),
      (translateRecipeMissed tm idx ings).1.get ⟨j, hj'⟩ =
        { ings.get ⟨j, hj⟩ with
            original := jsIndex tm (idx + j) ((ings.get ⟨j, hj⟩).original) } := by
  intro ings
  induction ings with
  | nil => intro idx j hj; exact absurd hj (by simp)
  | cons ing rest ih =>
    intro idx j hj hj'
    cases j with
    | zero => simp [translateRecipeMissed]
    | succ n =>
      have hn : n < rest.length := by simpa using hj
      have hn' : n < (translateRecipeMissed tm (idx + 1) rest).1.length := by
        simpa [translateRecipeMissed_length] using hn
      have := ih (idx + 1) n hn hn'
      have harith : idx + 1 + n = idx + (n + 1) := by omega
      rw [harith] at this
      simpa [translateRecipeMissed] using this

/-- Claim C10: with an empty inventory the search handler answers 200 with
an empty list immediately (server.js:382-384) — same final state: no
translation call, no Spoonacular call, no cache read and no cache write. -/
theorem claim_C10_empty_inventory (cfg : Config) (st : St) (filters : Filters) :
    buscarRecetas cfg st [] filters = (.ok [], st) := rfl

/-- Claim C9: each cache entry expires independently, 23 hours after its own
`createdAt`: a read strictly before `createdAt + 23h` is a hit returning the
stored data, and a read strictly after `createdAt + 23h` is a miss; the read
itself never mutates the store (`cacheGetAt` is a pure function of it).
Modelled from the spec (see `cacheGetAt`): the purge itself is executed by
MongoDB from the `expires: '23h'` declaration of CacheEntryModel.js. -/
theorem claim_C9_ttl_expiry (entries : List (String × TimedEntry)) (key : String)
    (e : TimedEntry) (now : Nat) (hfind : findOne entries key = some e) :
    (now < e.createdAt + ttlSeconds → cacheGetAt entries key now = some e.data)
    ∧ (now > e.createdAt + ttlSeconds → cacheGetAt entries key now = none) := by
  constructor <;> intro hn
  · simp only [cacheGetAt, hfind]
    rw [if_neg]
    simp only [ttlSeconds] at hn ⊢
    omega
  · simp only [cacheGetAt, hfind]
    rw [if_pos]
    simp only [ttlSeconds] at hn ⊢
    omega

/-- Witness for C9: an entry written at `T = 1000` is readable at
`T + 22h59m` (hit with the stored value) and gone at `T + 23h01m`. -/
theorem claim_C9_ttl_expiry_witness :
    cacheGetAt [("spoonacular:details:716429", ⟨1000, "v"⟩)]
        "spoonacular:details:716429" (1000 + 82740) = some "v"
    ∧ cacheGetAt [("spoonacular:details:716429", ⟨1000, "v"⟩)]
        "spoonacular:details:716429" (1000 + 82860) = none := by
  constructor
  · exact (claim_C9_ttl_expiry _ _ ⟨1000, "v"⟩ _ (by decide)).1 (by decide)
  · exact (claim_C9_ttl_expiry _ _ ⟨1000, "v"⟩ _ (by decide)).2 (by decide)

/-- Claim C1: the separator-based batch protocol is length- and
position-preserving at every reassembly site.  For recipe titles and for the
flattened missed-ingredient sequence of the search flow, and for the
`extendedIngredients` of the detail flow: the output has exactly as many
elements as the input; an index beyond the piece count, an empty piece, or a
wholly absent translation (`none`, which yields no pieces) falls back to the
original text at that index; an available non-empty piece is used at its own
index. -/
theorem claim_C1_batch_alignment (data : List Recipe) (respT respM : Option String)
    (det : RecipeDetail) (tT tS tI respJ : Option String) :
    (searchOut data respT respM).length = data.length
    ∧ (∀ i (h : i < data.length) (h' : i < (searchOut data respT respM).length),
        (((jsSplitTrimOrEmpty respT).length ≤ i ∨ (jsSplitTrimOrEmpty respT)[i]? = some "") →
          ((searchOut data respT respM).get ⟨i, h'⟩).title = (data.get ⟨i, h⟩).title)
        ∧ (∀ s, (jsSplitTrimOrEmpty respT)[i]? = some s → s ≠ "" →
            ((searchOut data respT respM).get ⟨i, h'⟩).title = s)
        ∧ ((searchOut data respT respM).get ⟨i, h'⟩).missedIngredients.length =
            (data.get ⟨i, h⟩).missedIngredients.length)
    ∧ (flatMissedOriginals (searchOut data respT respM)).length =
        (flatMissedOriginals data).length
    ∧ (∀ j (hj : j < (flatMissedOriginals data).length)
        (hj' : j < (flatMissedOriginals (searchOut data respT respM)).length),
        (((jsSplitTrimOrEmpty respM).length ≤ j ∨ (jsSplitTrimOrEmpty respM)[j]? = some "") →
          (flatMissedOriginals (searchOut data respT respM)).get ⟨j, hj'⟩ =
            (flatMissedOriginals data).get ⟨j, hj⟩)
        ∧ (∀ s, (jsSplitTrimOrEmpty respM)[j]? = some s → s ≠ "" →
            (flatMissedOriginals (searchOut data respT respM)).get ⟨j, hj'⟩ = s))
    ∧ (translatedDataDetail det tT tS tI respJ).extendedIngredients.length =
        det.extendedIngredients.length
    ∧ (∀ i (h : i < det.extendedIngredients.length)
        (h' : i < (translatedDataDetail det tT tS tI respJ).extendedIngredients.length),
        (((detailPieces respJ).length ≤ i ∨ (detailPieces respJ)[i]? = some "") →
          ((translatedDataDetail det tT tS tI respJ).extendedIngredients.get ⟨i, h'⟩).original =
            (det.extendedIngredients.get ⟨i, h⟩).original)
        ∧ (∀ s, (detailPieces respJ)[i]? = some s → s ≠ "" →
            ((translatedDataDetail det tT tS tI respJ).extendedIngredients.get ⟨i, h'⟩).original =
              jsTrim s)) := by
  refine ⟨translatedDataSearch_length data _ _, ?_, ?_, ?_, ?_, ?_⟩
  · intro i h h'
    obtain ⟨m', hm⟩ := translatedDataSearchGo_get (jsSplitTrimOrEmpty respT)
      (jsSplitTrimOrEmpty respM) data 0 0 i h h'
    refine ⟨?_, ?_, ?_⟩
    · intro hbad
      rw [show (searchOut data respT respM).get ⟨i, h'⟩ =
        (translatedDataSearchGo (jsSplitTrimOrEmpty respT) (jsSplitTrimOrEmpty respM)
          0 0 data).get ⟨i, h'⟩ from rfl, hm]
      show jsIndex (jsSplitTrimOrEmpty respT) (0 + i) ((data.get ⟨i, h⟩).title) =
        (data.get ⟨i, h⟩).title
      rw [Nat.zero_add]
      rcases hbad with hge | hemp
      · exact jsIndex_of_ge hge _
      · exact jsIndex_of_empty hemp _
    · intro s hs hne
      rw [show (searchOut data respT respM).get ⟨i, h'⟩ =
        (translatedDataSearchGo (jsSplitTrimOrEmpty respT) (jsSplitTrimOrEmpty respM)
          0 0 data).get ⟨i, h'⟩ from rfl, hm]
      show jsIndex (jsSplitTrimOrEmpty respT) (0 + i) ((data.get ⟨i, h⟩).title) = s
      rw [Nat.zero_add]
      exact jsIndex_of_piece hs hne _
    · rw [show (searchOut data respT respM).get ⟨i, h'⟩ =
        (translatedDataSearchGo (jsSplitTrimOrEmpty respT) (jsSplitTrimOrEmpty respM)
          0 0 data).get ⟨i, h'⟩ from rfl, hm]
      exact translateRecipeMissed_length _ _ m'
  · rw [show flatMissedOriginals (searchOut data respT respM) =
      mapFrom (jsSplitTrimOrEmpty respM) 0 (flatMissedOriginals data) from
        flat_translatedDataSearchGo _ _ data 0 0]
    exact mapFrom_length _ _ 0
  · intro j hj hj'
    have hflat : flatMissedOriginals (searchOut data respT respM) =
        mapFrom (jsSplitTrimOrEmpty respM) 0 (flatMissedOriginals data) :=
      flat_translatedDataSearchGo _ _ data 0 0
    have hj'' : j < (mapFrom (jsSplitTrimOrEmpty respM) 0 (flatMissedOriginals data)).length := by
      rw [← hflat]; exact hj'
    have hget : (flatMissedOriginals (searchOut data respT respM)).get ⟨j, hj'⟩ =
        jsIndex (jsSplitTrimOrEmpty respM) (0 + j) ((flatMissedOriginals data).get ⟨j, hj⟩) := by
      rw [List.get_of_eq hflat ⟨j, hj'⟩]
      exact mapFrom_get (jsSplitTrimOrEmpty respM) (flatMissedOriginals data) 0 j hj
        (by simpa [mapFrom_length] using hj)
    constructor
    · intro hbad
      rw [hget, Nat.zero_add]
      rcases hbad with hge | hemp
      · exact jsIndex_of_ge hge _
      · exact jsIndex_of_empty hemp _
    · intro s hs hne
      rw [hget, Nat.zero_add]
      exact jsIndex_of_piece hs hne _
  · show (translateIngredients (detailPieces respJ) 0 det.extendedIngredients).length =
      det.extendedIngredients.length
    exact translateIngredients_length _ _ 0
  · intro i h h'
    have hget := translateIngredients_get (detailPieces respJ) det.extendedIngredients 0 i h
      (by simpa [translatedDataDetail, translateIngredients_length] using h')
    constructor
    · intro hbad
      rw [show (translatedDataDetail det tT tS tI respJ).extendedIngredients.get ⟨i, h'⟩ =
        (translateIngredients (detailPieces respJ) 0 det.extendedIngredients).get
          ⟨i, by simpa [translatedDataDetail, translateIngredients_length] using h'⟩ from rfl, hget]
      show detailPiece (detailPieces respJ) (0 + i) ((det.extendedIngredients.get ⟨i, h⟩).original) =
        (det.extendedIngredients.get ⟨i, h⟩).original
      rw [Nat.zero_add]
      rcases hbad with hge | hemp
      · exact detailPiece_of_ge hge _
      · exact detailPiece_of_empty hemp _
    · intro s hs hne
      rw [show (translatedDataDetail det tT tS tI respJ).extendedIngredients.get ⟨i, h'⟩ =
        (translateIngredients (detailPieces respJ) 0 det.extendedIngredients).get
          ⟨i, by simpa [translatedDataDetail, translateIngredients_length] using h'⟩ from rfl, hget]
      show detailPiece (detailPieces respJ) (0 + i) ((det.extendedIngredients.get ⟨i, h⟩).original) =
        jsTrim s
      rw [Nat.zero_add]
      exact detailPiece_of_piece hs hne _

/-- Witness for C1, on the spec's own scenario: translating the batch
`["pan","leche","huevo"]` with a provider response of only two pieces
`"bread|||milk"` yields exactly 3 titles `["bread","milk","huevo"]` — the
third falls back to its original. -/
theorem claim_C1_batch_alignment_witness :
    (searchOut c1Data (some "bread|||milk") none).length = 3
    ∧ ((searchOut c1Data (some "bread|||milk") none).get ⟨0, by decide⟩).title = "bread"
    ∧ ((searchOut c1Data (some "bread|||milk") none).get ⟨2, by decide⟩).title = "huevo" := by
  have h := claim_C1_batch_alignment c1Data (some "bread|||milk") none c1Det
    none none none none
  refine ⟨h.1, ?_, ?_⟩
  · exact (h.2.1 0 (by decide) (by decide)).2.1 "bread" (by decide) (by decide)
  · exact ((h.2.1 2 (by decide) (by decide)).1 (Or.inl (by decide))).trans (by decide)

/-- Claim C4: translation rewrites only the designated text fields.  On a
detail response: `id`, `image` and every other field (`rest`) are unchanged,
`extendedIngredients` keeps its length, and each ingredient keeps its `id`,
`amount`, `unit` and remaining fields (`rest`) at the same index.  On a
search result list: the list keeps its length and each recipe keeps `id`,
`image` and `rest`; each `missedIngredients` array keeps its length and each
missed ingredient keeps `id`, `amount`, `unit` and `rest` at its index. -/
theorem claim_C4_frame_condition (data : List Recipe) (tt tm : List String)
    (det : RecipeDetail) (tT tS tI tJ : Option String) :
    (translatedDataDetail det tT tS tI tJ).id = det.id
    ∧ (translatedDataDetail det tT tS tI tJ).image = det.image
    ∧ (translatedDataDetail det tT tS tI tJ).rest = det.rest
    ∧ (translatedDataDetail det tT tS tI tJ).extendedIngredients.length =
        det.extendedIngredients.length
    ∧ (∀ i (h : i < det.extendedIngredients.length)
        (h' : i < (translatedDataDetail det tT tS tI tJ).extendedIngredients.length),
        ((translatedDataDetail det tT tS tI tJ).extendedIngredients.get ⟨i, h'⟩).id =
          (det.extendedIngredients.get ⟨i, h⟩).id
        ∧ ((translatedDataDetail det tT tS tI tJ).extendedIngredients.get ⟨i, h'⟩).amount =
            (det.extendedIngredients.get ⟨i, h⟩).amount
        ∧ ((translatedDataDetail det tT tS tI tJ).extendedIngredients.get ⟨i, h'⟩).unit =
            (det.extendedIngredients.get ⟨i, h⟩).unit
        ∧ ((translatedDataDetail det tT tS tI tJ).extendedIngredients.get ⟨i, h'⟩).rest =
            (det.extendedIngredients.get ⟨i, h⟩).rest)
    ∧ (translatedDataSearch data tt tm).length = data.length
    ∧ (∀ i (h : i < data.length) (h' : i < (translatedDataSearch data tt tm).length),
        ((translatedDataSearch data tt tm).get ⟨i, h'⟩).id = (data.get ⟨i, h⟩).id
        ∧ ((translatedDataSearch data tt tm).get ⟨i, h'⟩).image = (data.get ⟨i, h⟩).image
        ∧ ((translatedDataSearch data tt tm).get ⟨i, h'⟩).rest = (data.get ⟨i, h⟩).rest
        ∧ ((translatedDataSearch data tt tm).get ⟨i, h'⟩).missedIngredients.length =
            (data.get ⟨i, h⟩).missedIngredients.length
        ∧ (∀ j (hj : j < (data.get ⟨i, h⟩).missedIngredients.length)
            (hj' : j < ((translatedDataSearch data tt tm).get ⟨i, h'⟩).missedIngredients.length),
            (((translatedDataSearch data tt tm).get ⟨i, h'⟩).missedIngredients.get ⟨j, hj'⟩).id =
              ((data.get ⟨i, h⟩).missedIngredients.get ⟨j, hj⟩).id
            ∧ (((translatedDataSearch data tt tm).get ⟨i, h'⟩).missedIngredients.get
                ⟨j, hj'⟩).amount = ((data.get ⟨i, h⟩).missedIngredients.get ⟨j, hj⟩).amount
            ∧ (((translatedDataSearch data tt tm).get ⟨i, h'⟩).missedIngredients.get
                ⟨j, hj'⟩).unit = ((data.get ⟨i, h⟩).missedIngredients.get ⟨j, hj⟩).unit
            ∧ (((translatedDataSearch data tt tm).get ⟨i, h'⟩).missedIngredients.get
                ⟨j, hj'⟩).rest = ((data.get ⟨i, h⟩).missedIngredients.get ⟨j, hj⟩).rest)) := by
  refine ⟨rfl, rfl, rfl, translateIngredients_length _ _ 0, ?_,
    translatedDataSearch_length data tt tm, ?_⟩
  · intro i h h'
    have hb : i < (translateIngredients (detailPieces tJ) 0 det.extendedIngredients).length := h'
    rw [show (translatedDataDetail det tT tS tI tJ).extendedIngredients.get ⟨i, h'⟩ =
      (translateIngredients (detailPieces tJ) 0 det.extendedIngredients).get ⟨i, hb⟩ from rfl,
      translateIngredients_get (detailPieces tJ) det.extendedIngredients 0 i h hb]
    exact ⟨rfl, rfl, rfl, rfl⟩
  · intro i h h'
    obtain ⟨m', hm⟩ := translatedDataSearchGo_get tt tm data 0 0 i h h'
    rw [show (translatedDataSearch data tt tm).get ⟨i, h'⟩ =
      (translatedDataSearchGo tt tm 0 0 data).get ⟨i, h'⟩ from rfl, hm]
    refine ⟨rfl, rfl, rfl, translateRecipeMissed_length tm _ m', ?_⟩
    intro j hj hj'
    rw [translateRecipeMissed_get tm ((data.get ⟨i, h⟩).missedIngredients) m' j hj hj']
    exact ⟨rfl, rfl, rfl, rfl⟩

/-- Witness for C4: translating a concrete detail response rewrites the
title but keeps `id`, `image`, the ingredient's `amount` and `unit`, and the
opaque remaining fields bit-identical. -/
theorem claim_C4_frame_condition_witness :
    (translatedDataDetail c4Det (some "Fideos") none none (some "2 tazas de harina")).id = 716429
    ∧ (translatedDataDetail c4Det (some "Fideos") none none
        (some "2 tazas de harina")).image = "img.png"
    ∧ ((translatedDataDetail c4Det (some "Fideos") none none
        (some "2 tazas de harina")).extendedIngredients.get ⟨0, by decide⟩).amount = 2 := by
  have h := claim_C4_frame_condition [] [] [] c4Det (some "Fideos") none none
    (some "2 tazas de harina")
  refine ⟨h.1.trans (by decide), h.2.1.trans (by decide), ?_⟩
  exact ((h.2.2.2.2.1 0 (by decide) (by decide)).2.1).trans (by decide)

/-- Claim C3: with a working cache store and a provider that answers this
prompt, two identical `translateText` calls return the same `some` value,
issue at most one Gemini call in total, and the second call issues none (it
is a cache hit); and the cache key separates distinct texts exactly (no
normalization: distinct texts never share a key). -/
theorem claim_C3_cache_idempotence (cfg : Config) (st : St) (text src tgt raw : String)
    (hInit : cfg.modelInit = true) (hR : cfg.transReadFails = false)
    (hW : cfg.transWriteFails = false)
    (hG : cfg.gemini (geminiPrompt src tgt text) = some raw) :
    (∃ v, (translateText cfg st text src tgt).1 = some v ∧
      (translateText cfg (translateText cfg st text src tgt).2 text src tgt).1 = some v)
    ∧ (translateText cfg (translateText cfg st text src tgt).2 text src tgt).2.nGemini ≤
        st.nGemini + 1
    ∧ (translateText cfg (translateText cfg st text src tgt).2 text src tgt).2.nGemini =
        (translateText cfg st text src tgt).2.nGemini
    ∧ (∀ t₁ t₂ : String, t₁ ≠ t₂ →
        translationCacheKey src tgt t₁ ≠ translationCacheKey src tgt t₂) := by
  have hkeyInj : ∀ t₁ t₂ : String, t₁ ≠ t₂ →
      translationCacheKey src tgt t₁ ≠ translationCacheKey src tgt t₂ := by
    intro t₁ t₂ hne heq
    apply hne
    apply String.eq_of_data_eq
    have hd := congrArg String.data heq
    simp only [translationCacheKey, strAppendData, List.append_assoc] at hd
    exact List.append_cancel_left (List.append_cancel_left (List.append_cancel_left
      (List.append_cancel_left (List.append_cancel_left hd))))
  cases hfind : findOne st.transCache (translationCacheKey src tgt text) with
  | some v =>
    refine ⟨⟨v, ?_, ?_⟩, ?_, ?_, hkeyInj⟩ <;>
      simp [translateText, hInit, hR, hW, hfind, hG]
  | none =>
    refine ⟨⟨jsTrim raw, ?_, ?_⟩, ?_, ?_, hkeyInj⟩ <;>
      simp [translateText, hInit, hR, hW, hfind, hG, findOne]

/-- Witness for C3: a concrete double call — both calls return the same
(trimmed) translation and the second issues no further Gemini call. -/
theorem claim_C3_cache_idempotence_witness :
    (∃ v, (translateText c3Cfg St.empty "pan" "es" "en").1 = some v ∧
      (translateText c3Cfg (translateText c3Cfg St.empty "pan" "es" "en").2 "pan" "es" "en").1 =
        some v)
    ∧ (translateText c3Cfg (translateText c3Cfg St.empty "pan" "es" "en").2 "pan" "es" "en").2.nGemini =
        (translateText c3Cfg St.empty "pan" "es" "en").2.nGemini := by
  have h := claim_C3_cache_idempotence c3Cfg St.empty "pan" "es" "en" " hola "
    rfl rfl rfl rfl
  exact ⟨h.1, h.2.2.1⟩

/-- Counterexample to claim C2: with the translation provider wholly
unavailable (`modelInit = false`, the unavailable signal), a search over the
non-empty inventory `["pan"]` does NOT proceed with the original names — the
handler throws at server.js:392 and answers 500, and Spoonacular is never
queried (`nSpoon = 0`), although a working provider was configured. -/
theorem claim_C2_counterexample :
    (buscarRecetas c2Cfg St.empty ["pan"] Filters.none').1 =
      .err 500 "La traducción de ingredientes (ES->EN) falló."
    ∧ (buscarRecetas c2Cfg St.empty ["pan"] Filters.none').2.nSpoon = 0 := by
  constructor <;> rfl

/-- Claim C2 (amended): if the batch translation of the inventory names
returns the unavailable signal, the search flow does not fall back to the
original names — it aborts the whole request with a 500 response carrying
the message of the error thrown at server.js:392. -/
theorem claim_C2_amended (cfg : Config) (st : St) (names : List String) (filters : Filters)
    (hne : names.length ≠ 0)
    (ht : (translateText cfg st (searchEsEnPrompt (String.intercalate separador names))
        "es" "en").1 = none) :
    (buscarRecetas cfg st names filters).1 =
      .err 500 "La traducción de ingredientes (ES->EN) falló." := by
  have hpair : translateText cfg st (searchEsEnPrompt (String.intercalate separador names))
      "es" "en" =
      (none, (translateText cfg st (searchEsEnPrompt (String.intercalate separador names))
        "es" "en").2) := by
    rw [← ht]
  simp only [buscarRecetas]
  rw [if_neg hne, hpair]

/-- Witness for the amended C2. -/
theorem claim_C2_amended_witness :
    (buscarRecetas c2Cfg St.empty ["leche"] Filters.none').1 =
      .err 500 "La traducción de ingredientes (ES->EN) falló." :=
  claim_C2_amended c2Cfg St.empty ["leche"] Filters.none' (by decide) rfl

/-- Counterexample to claim C5: (1) when the cache read rejects,
`translateText` does NOT behave as a cache miss — it returns `null` without
ever calling the provider (`nGemini = 0`); (2) when the cache write rejects
after a successful provider call, the computed result is NOT returned — the
catch returns `null`; (3) in the search flow a store failure IS surfaced to
the end user as a 500 response. -/
theorem claim_C5_counterexample :
    ((translateText c5ReadCfg St.empty "pan" "es" "en").1 = none
      ∧ (translateText c5ReadCfg St.empty "pan" "es" "en").2.nGemini = 0)
    ∧ ((translateText c5WriteCfg St.empty "pan" "es" "en").1 = none
      ∧ (translateText c5WriteCfg St.empty "pan" "es" "en").2.nGemini = 1)
    ∧ (buscarRecetas c5SearchCfg St.empty ["pan"] Filters.none').1 =
        .err 500 storeErrorMessage := by
  refine ⟨⟨rfl, rfl⟩, ⟨rfl, rfl⟩, rfl⟩

/-- Claim C5 (amended): a store failure never crashes `translateText`: the
catch converts it to the unavailable signal — a read failure skips the
provider call entirely and a write failure discards the computed result
(both leave the translation cache unchanged); in the search flow, a
provider-cache read failure aborts the request with a 500 response. -/
theorem claim_C5_amended (cfg : Config) (st : St) (text src tgt raw : String)
    (hInit : cfg.modelInit = true) :
    (cfg.transReadFails = true →
      translateText cfg st text src tgt =
        (none, { st with nCacheReads := st.nCacheReads + 1 }))
    ∧ (cfg.transReadFails = false → cfg.transWriteFails = true →
        findOne st.transCache (translationCacheKey src tgt text) = none →
        cfg.gemini (geminiPrompt src tgt text) = some raw →
        translateText cfg st text src tgt =
          (none, { st with nCacheReads := st.nCacheReads + 1, nGemini := st.nGemini + 1,
                           nCacheWrites := st.nCacheWrites + 1 }))
    ∧ (∀ names filters s, cfg.searchReadFails = true → names.length ≠ 0 →
        (translateText cfg st (searchEsEnPrompt (String.intercalate separador names))
          "es" "en").1 = some s →
        (buscarRecetas cfg st names filters).1 = .err 500 storeErrorMessage) := by
  refine ⟨?_, ?_, ?_⟩
  · intro hr
    simp [translateText, hInit, hr]
  · intro hr hw hfind hG
    simp [translateText, hInit, hr, hw, hfind, hG]
  · intro names filters s hsrf hne hts
    have hpair : translateText cfg st (searchEsEnPrompt (String.intercalate separador names))
        "es" "en" =
        (some s, (translateText cfg st (searchEsEnPrompt (String.intercalate separador names))
          "es" "en").2) := by
      rw [← hts]
    simp only [buscarRecetas]
    rw [if_neg hne, hpair]
    simp [hsrf]

/-- Witness for the amended C5. -/
theorem claim_C5_amended_witness :
    translateText c5ReadCfg St.empty "pan" "es" "en" =
      (none, { St.empty with nCacheReads := 1 }) :=
  (claim_C5_amended c5ReadCfg St.empty "pan" "es" "en" "hello" rfl).1 rfl

/-- Counterexample to claim C6: the code sorts but never deduplicates
(server.js:396-398): `["egg","egg"]` and `["egg"]` are equal as sets (each
is a subset of the other) yet produce different search cache keys. -/
theorem claim_C6_counterexample :
    ((["egg", "egg"] : List String) ⊆ ["egg"] ∧ (["egg"] : List String) ⊆ ["egg", "egg"])
    ∧ fullSearchKey ["egg", "egg"] Filters.none' ≠ fullSearchKey ["egg"] Filters.none' := by
  refine ⟨⟨?_, ?_⟩, ?_⟩ <;> decide

/-- Claim C6 (amended): the flow deterministically sorts (but does not
deduplicate) the translated names, so any two lists that are equal as
multisets — same elements with the same multiplicities, in any order —
produce the same search cache key. -/
theorem claim_C6_amended (l₁ l₂ : List String) (f : Filters) (h : l₁.Perm l₂) :
    fullSearchKey l₁ f = fullSearchKey l₂ f := by
  unfold fullSearchKey
  rw [jsSortStrings_eq_of_perm h]

/-- Witness for the amended C6: the spec's example pair. -/
theorem claim_C6_amended_witness :
    fullSearchKey ["egg", "milk"] Filters.none' = fullSearchKey ["milk", "egg"] Filters.none' :=
  claim_C6_amended ["egg", "milk"] ["milk", "egg"] Filters.none'
    (List.Perm.swap "milk" "egg" [])

/-- Counterexample to claim C7: two searches with the same ingredient string
and different active filter values (a '&'-containing diet value versus a
diet plus a calorie cap) produce the SAME cache key, so they share one cache
entry. -/
theorem claim_C7_counterexample :
    activeView c7F1 ≠ activeView c7F2
    ∧ spoonacularSearchCacheKey "egg" c7F1 = spoonacularSearchCacheKey "egg" c7F2 := by
  refine ⟨by decide, rfl⟩

/-- Claim C7 (amended): restricted to filter values that do not contain the
`'&'` character (true of every value the UI offers), the search cache key
separates filter settings: different active filter values give different
keys. -/
theorem claim_C7_amended (ing : String) (f₁ f₂ : Filters)
    (h₁ : ampFree f₁ = true) (h₂ : ampFree f₂ = true)
    (hne : activeView f₁ ≠ activeView f₂) :
    spoonacularSearchCacheKey ing f₁ ≠ spoonacularSearchCacheKey ing f₂ :=
  fun heq => hne (spoonacularSearchCacheKey_filters_inj h₁ h₂ heq)

/-- Witness for the amended C7: same ingredients, one request additionally
caps calories — the keys differ. -/
theorem claim_C7_amended_witness :
    spoonacularSearchCacheKey "egg" ⟨some "vegan", none, none, none, none⟩ ≠
      spoonacularSearchCacheKey "egg" ⟨some "vegan", some "100", none, none, none⟩ :=
  claim_C7_amended "egg" ⟨some "vegan", none, none, none, none⟩
    ⟨some "vegan", some "100", none, none, none⟩ (by decide) (by decide) (by decide)

/-- Counterexample to claim C8: on a cache-missed Spoonacular search error
with status 402, the search flow does NOT surface the provider's status — it
answers 500 with a generic message (server.js:429 throws a plain `Error`,
caught at server.js:501), although the status (402) was available. -/
theorem claim_C8_counterexample :
    (buscarRecetas c8Cfg St.empty ["pan"] Filters.none').1 =
      .err 500 "Error al llamar a Spoonacular API (Search)."
    ∧ (500 : Nat) ≠ 402 := by
  refine ⟨rfl, by decide⟩

/-- Claim C8 (amended): on a cache-missed provider error, the detail flow
forwards the provider's status (server.js:543) but the search flow answers a
generic 500 without the provider's status; a total translation failure in
the EN→ES response-translation stage degrades to original-language text and
still answers 200 (both for search results and for a detail object), while
a failure of the initial ES→EN inventory translation aborts the search
(see the amended C2). -/
theorem claim_C8_amended (cfg : Config) (st : St) (recipeId : String) (status : Nat)
    (names : List String) (filters : Filters) (data : List Recipe) (det : RecipeDetail) :
    (cfg.detailReadFails = false → st.detailCache = [] →
      cfg.spoonDetail recipeId = .httpErr status →
      (detallesReceta cfg st recipeId).1 =
        .err status "Error de la API externa al obtener detalles.")
    ∧ (∀ s, cfg.searchReadFails = false → st.searchCache = [] → names.length ≠ 0 →
        (translateText cfg st (searchEsEnPrompt (String.intercalate separador names))
          "es" "en").1 = some s →
        (∀ a b, cfg.spoon a b = .httpErr status) →
        (buscarRecetas cfg st names filters).1 =
          .err 500 "Error al llamar a Spoonacular API (Search).")
    ∧ (cfg.modelInit = false → (afterSearch cfg st data).1 = .ok data)
    ∧ (cfg.modelInit = false → (detallesTranslatePhase cfg st det).1 = .ok det) := by
  refine ⟨?_, ?_, ?_, ?_⟩
  · intro hdr hcache hsd
    simp [detallesReceta, hdr, hcache, hsd, findOne]
  · intro s hsr hcache hne hts hsp
    have hpair : translateText cfg st (searchEsEnPrompt (String.intercalate separador names))
        "es" "en" =
        (some s, (translateText cfg st (searchEsEnPrompt (String.intercalate separador names))
          "es" "en").2) := by
      rw [← hts]
    simp only [buscarRecetas]
    rw [if_neg hne, hpair]
    simp [hsr, translateText_searchCache, hcache, findOne, hsp]
  · intro h
    rw [afterSearch_noGemini cfg st data h]
  · intro h
    rw [detallesTranslatePhase_noGemini cfg st det h]

/-- Witness for the amended C8: a concrete detail request whose provider
answers 429 is forwarded with status 429. -/
theorem claim_C8_amended_witness :
    (detallesReceta c8wCfg St.empty "716429").1 =
      .err 429 "Error de la API externa al obtener detalles." :=
  (claim_C8_amended c8wCfg St.empty "716429" 429 [] Filters.none' []
    ⟨0, "", "", "", "", [], ""⟩).1 rfl rfl rfl

